import Mathlib

/-!
Shallow embedding of the Flask invoicing application in `src/app.py`
(repository santiagosossaa1/Flask-Trabajo), together with proofs of the
behavioural claims about it.

Modelling conventions:
* `Numeric(10,2)` / `Decimal` money values are exact multiples of 0.01;
  they are modelled as `Int` counts of hundredths (cents). The only
  money operations the application performs — summing and multiplying
  by an integer quantity — are exact and stay in hundredths, so this
  carrier is faithful (100.00 is the integer 10000).
* Python `int` columns (ids, quantities, stock) are modelled as `Int`.
* Python `datetime` values are modelled as a record of calendar fields
  compared lexicographically (chronological order for in-range values).
* A web form field read with `request.form.get(name, type=int)` is an
  `Option Int` (`none` when absent or unparseable); Python truthiness of
  such a value (`if pid and qty:`) is `truthyInt`.
* Handlers are pure functions from the database state (the four tables
  plus autoincrement counters) to an outcome and a new state; a rejection
  path (`flash` + re-render, no `commit`) returns the state unchanged.
-/

namespace FlaskApp

/-- Python truthiness of an optional integer form value: `None` and `0`
are falsy, every other integer is truthy (`if pid and qty:` in `app.py`). -/
def truthyInt : Option Int → Bool
  | none => false
  | some n => n != 0

/-- Python `s or None` on a string: empty string becomes `None`
(used by `clientes_nuevo`/`clientes_editar` in `app.py`). -/
def orNone (s : String) : Option String :=
  if s == "" then none else some s

/-! ### datetime model -/

/-- Model of a Python `datetime.datetime` value: the seven calendar
components. Python orders datetimes chronologically, which for in-range
components is lexicographic component order. -/
structure PyDateTime where
  year : Nat
  month : Nat
  day : Nat
  hour : Nat
  minute : Nat
  second : Nat
  microsecond : Nat
deriving DecidableEq, Repr

/-- Lexicographic (= chronological) comparison of two datetimes,
modelling Python `<=` on `datetime`. -/
def dtLe (a b : PyDateTime) : Bool :=
  if a.year ≠ b.year then decide (a.year < b.year)
  else if a.month ≠ b.month then decide (a.month < b.month)
  else if a.day ≠ b.day then decide (a.day < b.day)
  else if a.hour ≠ b.hour then decide (a.hour < b.hour)
  else if a.minute ≠ b.minute then decide (a.minute < b.minute)
  else if a.second ≠ b.second then decide (a.second < b.second)
  else decide (a.microsecond ≤ b.microsecond)

/-- `hasta_dt.replace(hour=23, minute=59, second=59, microsecond=999999)`
from `facturas_list` / `reportes_ventas` in `app.py`. -/
def endOfDay (t : PyDateTime) : PyDateTime :=
  { t with hour := 23, minute := 59, second := 59, microsecond := 999999 }

/-- Leap-year test of the Gregorian calendar (Python `calendar.isleap`,
as used implicitly by `datetime`'s day-of-month validation). -/
def isLeap (y : Nat) : Bool :=
  y % 4 == 0 && (y % 100 != 0 || y % 400 == 0)

/-- Number of days in month `m` of year `y` (Python `datetime` validity). -/
def daysInMonth (y m : Nat) : Nat :=
  if m == 2 then (if isLeap y then 29 else 28)
  else if m == 4 || m == 6 || m == 9 || m == 11 then 30
  else 31

/-- Split a character list at every `-` (the literal separators of the
`"%Y-%m-%d"` format), keeping empty segments, as Python's format
matching does between the conversion specifiers. -/
def splitDashes : List Char → List (List Char)
  | [] => [[]]
  | c :: rest =>
    let r := splitDashes rest
    if c = '-' then [] :: r
    else
      match r with
      | [] => [[c]]
      | g :: gs => (c :: g) :: gs

/-- The numeric value of a run of decimal digits, `none` when the run
is empty or contains a non-digit (how `strptime`'s `\d` groups and
`int()` treat a field). -/
def digitsToNat? (cs : List Char) : Option Nat :=
  if !cs.isEmpty && cs.all (fun c => c.isDigit) then
    some (cs.foldl (fun n c => n * 10 + (c.toNat - 48)) 0)
  else none

/-- Model of `_parse_date_yyyy_mm_dd` (`app.py` lines 411-417):
`datetime.strptime(s, "%Y-%m-%d")`, returning `none` for a missing or
empty argument and for any string that does not parse as a valid date.
Faithful to CPython `strptime`: `%Y` is exactly four digits, `%m` and
`%d` are one or two digits in range (months 1-12, days 1-31), the three
parts are separated by literal `-` with nothing left over, and the
`datetime` constructor then rejects year 0 and a day beyond the length
of the month (a `ValueError` is caught and yields `None`). -/
def _parse_date_yyyy_mm_dd (s? : Option String) : Option PyDateTime :=
  match s? with
  | none => none
  | some s =>
    if s == "" then none
    else
      match splitDashes s.toList with
      | [ys, ms, ds] =>
        match digitsToNat? ys, digitsToNat? ms, digitsToNat? ds with
        | some y, some m, some d =>
          if ys.length == 4 && 1 ≤ ms.length && ms.length ≤ 2
              && 1 ≤ ds.length && ds.length ≤ 2
              && 1 ≤ y && 1 ≤ m && m ≤ 12 && 1 ≤ d && d ≤ daysInMonth y m
          then some ⟨y, m, d, 0, 0, 0, 0⟩
          else none
        | _, _, _ => none
      | _ => none

/-! ### Data model (`app.py` lines 93-170) -/

/-- Row of table `clientes` (`Cliente` model, `app.py` lines 93-103). -/
structure Cliente where
  id : Int
  nombre : String
  direccion : Option String
  telefono : Option String
  email : Option String
deriving DecidableEq, Repr

/-- Row of table `productos` (`Producto` model, `app.py` lines 105-120). -/
structure Producto where
  id : Int
  descripcion : String
  precio : Int
  stock : Int
deriving DecidableEq, Repr

/-- Row of table `facturas` (`Factura` model, `app.py` lines 122-142). -/
structure Factura where
  id : Int
  cliente_id : Int
  fecha : PyDateTime
  total : Int
deriving DecidableEq, Repr

/-- Row of table `detalle_factura` (`DetalleFactura` model,
`app.py` lines 144-170). -/
structure DetalleFactura where
  id : Int
  factura_id : Int
  producto_id : Int
  cantidad : Int
  precio_unitario : Int
  subtotal : Int
deriving DecidableEq, Repr

/-- The persistent state: the four entity tables plus the autoincrement
counters SQLite maintains for their integer primary keys. -/
structure DB where
  clientes : List Cliente
  productos : List Producto
  facturas : List Factura
  detalles : List DetalleFactura
  nextClienteId : Int
  nextProductoId : Int
  nextFacturaId : Int
  nextDetalleId : Int
deriving DecidableEq, Repr

/-- `DetalleFactura.calcular_subtotal` (`app.py` lines 166-167):
`subtotal = (precio_unitario or 0) * (cantidad or 0)`. -/
def calcular_subtotal (precio_unitario : Int) (cantidad : Int) : Int :=
  precio_unitario * cantidad

/-- `Factura.recalcular_total` (`app.py` lines 138-139): the invoice
total is the sum of its lines' subtotals. -/
def recalcular_total (dets : List DetalleFactura) : Int :=
  (dets.map (fun d => d.subtotal)).sum

/-- The lines of invoice `facId`: the rows of `detalle_factura` whose
foreign key `factura_id` references it (the `Factura.detalles`
relationship). -/
def lineasDe (db : DB) (facId : Int) : List DetalleFactura :=
  db.detalles.filter (fun d => d.factura_id == facId)

/-- The invoices of customer `cid` (the `Cliente.facturas` relationship,
used by `clientes_eliminar` via `cliente.facturas.count()`). -/
def facturasDe (db : DB) (cid : Int) : List Factura :=
  db.facturas.filter (fun f => f.cliente_id == cid)

/-- The invoice lines referencing product `pid` (the `Producto.detalles`
relationship, used by `productos_eliminar`). -/
def detallesDe (db : DB) (pid : Int) : List DetalleFactura :=
  db.detalles.filter (fun d => d.producto_id == pid)

/-- Primary-key lookup of a product (`by_id[pid]` in `facturas_nueva`;
primary keys are unique, so the first match is the row). -/
def byId (db : DB) (pid : Int) : Option Producto :=
  db.productos.find? (fun p => p.id == pid)

/-! ### Invoice creation (`facturas_nueva`, `app.py` lines 275-349) -/

/-- One of the five form row slots: `product_id_i` and `cantidad_i`,
each read with `type=int`. -/
abbrev Row := Option Int × Option Int

/-- The row-collection loop of `facturas_nueva` (`app.py` lines
293-301): keep the rows whose product id and quantity are both truthy,
in order; abort (`none`) as soon as a kept row has quantity `≤ 0`. -/
def collectItems : List Row → Option (List (Int × Int))
  | [] => some []
  | (pid?, qty?) :: rest =>
    if truthyInt pid? && truthyInt qty? then
      let pid := pid?.getD 0
      let qty := qty?.getD 0
      if qty ≤ 0 then none
      else
        match collectItems rest with
        | none => none
        | some items => some ((pid, qty) :: items)
    else collectItems rest

/-- One step of the aggregation loop (`agg[pid] = agg.get(pid, 0) + qty`
on a Python dict, which preserves insertion order): add `qty` to the
entry of `pid` when present, otherwise append a new entry. -/
def aggInsert (acc : List (Int × Int)) (pid qty : Int) : List (Int × Int) :=
  if acc.any (fun e => e.1 == pid) then
    acc.map (fun e => if e.1 == pid then (e.1, e.2 + qty) else e)
  else acc ++ [(pid, qty)]

/-- The aggregation of `facturas_nueva` (`app.py` lines 307-309):
quantities summed per product id, insertion-ordered. -/
def aggItems (items : List (Int × Int)) : List (Int × Int) :=
  items.foldl (fun acc e => aggInsert acc e.1 e.2) []

/-- Total quantity requested for product `pid` across the collected
rows (what the aggregated entry of `pid` must equal). -/
def sumQty (items : List (Int × Int)) (pid : Int) : Int :=
  ((items.filter (fun e => e.1 == pid)).map (fun e => e.2)).sum

/-- `faltan` (`app.py` line 313): the aggregated product ids that match
no product row. -/
def faltanList (db : DB) (agg : List (Int × Int)) : List Int :=
  (agg.map Prod.fst).filter (fun pid => (byId db pid).isNone)

/-- The shortfall message for one product, the f-string of `app.py`
line 323: `"{descripcion} (stock {stock}, pedido {qty})"`. -/
def insufEntry (p : Producto) (qty : Int) : String :=
  p.descripcion ++ " (stock " ++ toString p.stock ++ ", pedido " ++ toString qty ++ ")"

/-- `insuf` (`app.py` lines 318-323): one message per aggregated product
whose requested quantity exceeds its stock, in aggregation order. -/
def insufList (db : DB) (agg : List (Int × Int)) : List String :=
  agg.filterMap (fun e =>
    match byId db e.1 with
    | some p => if e.2 > p.stock then some (insufEntry p e.2) else none
    | none => none)

/-- The line-creation loop of `facturas_nueva` (`app.py` lines 331-341):
one `DetalleFactura` per aggregated entry, quantity the aggregated
quantity, unit price snapshotted from the product, subtotal from
`calcular_subtotal`; detail ids are drawn from the autoincrement
counter. -/
def buildDetalles (db : DB) (facId : Int) (detId : Int) :
    List (Int × Int) → List DetalleFactura
  | [] => []
  | (pid, qty) :: rest =>
    match byId db pid with
    | none => buildDetalles db facId detId rest
    | some p =>
      { id := detId
        factura_id := facId
        producto_id := p.id
        cantidad := qty
        precio_unitario := p.precio
        subtotal := calcular_subtotal p.precio qty } :: buildDetalles db facId (detId + 1) rest

/-- `p.stock = (p.stock or 0) - qty` (`app.py` line 342) applied to the
product table. -/
def decStock (prods : List Producto) (pid qty : Int) : List Producto :=
  prods.map (fun p => if p.id == pid then { p with stock := p.stock - qty } else p)

/-- Outcome of a POST to `/facturas/nueva`: a rejection re-rendering the
form with a flashed warning, or a redirect to the created invoice. -/
inductive PostOutcome where
  | rejected (msg : String)
  | created (facId : Int)
deriving DecidableEq, Repr

/-- The POST branch of `facturas_nueva` (`app.py` lines 287-347):
reject when no customer is selected, when a kept row has quantity `≤ 0`,
when no rows were kept, when an aggregated product id is unknown, or
when any aggregated quantity exceeds stock (one warning joining every
shortfall); otherwise create the invoice, one line per aggregated
product, decrement each product's stock, set the total to the sum of the
line subtotals, and commit — every rejection leaves the state unchanged. -/
def facturas_nueva_post (db : DB) (cliente_id : Option Int) (rows : List Row)
    (now : PyDateTime) : PostOutcome × DB :=
  if !truthyInt cliente_id then
    (.rejected "Selecciona un cliente.", db)
  else
    match collectItems rows with
    | none => (.rejected "La cantidad debe ser mayor que 0.", db)
    | some items =>
      if items.isEmpty then
        (.rejected "Agrega al menos un producto.", db)
      else
        let agg := aggItems items
        if !(faltanList db agg).isEmpty then
          (.rejected "Producto inexistente en la selección.", db)
        else
          let insuf := insufList db agg
          if !insuf.isEmpty then
            (.rejected ("Stock insuficiente para: " ++ String.intercalate ", " insuf), db)
          else
            let facId := db.nextFacturaId
            let dets := buildDetalles db facId db.nextDetalleId agg
            let factura : Factura :=
              { id := facId
                cliente_id := cliente_id.getD 0
                fecha := now
                total := recalcular_total dets }
            let productos' := agg.foldl (fun ps e => decStock ps e.1 e.2) db.productos
            (.created facId,
              { db with
                productos := productos'
                facturas := db.facturas ++ [factura]
                detalles := db.detalles ++ dets
                nextFacturaId := facId + 1
                nextDetalleId := db.nextDetalleId + (dets.length : Int) })

/-! ### Customer and product CRUD (`app.py` lines 219-272, 357-408) -/

/-- Outcome of a delete route: 404 for an unknown id, a flashed warning
with no mutation, or a successful deletion. -/
inductive DeleteOutcome where
  | notFound
  | rejected (msg : String)
  | deleted
deriving DecidableEq, Repr

/-- `clientes_nuevo` (`app.py` lines 227-243): on a valid form insert
the customer (fields stripped, email lowercased, blank optionals stored
as NULL); `valid` stands for the WTForms `validate_on_submit` verdict. -/
def clientes_nuevo (db : DB) (valid : Bool) (nombre : String)
    (direccion telefono email : Option String) : DB :=
  if valid then
    let c : Cliente :=
      { id := db.nextClienteId
        nombre := nombre.trim
        direccion := orNone (direccion.getD "").trim
        telefono := orNone (telefono.getD "").trim
        email := orNone ((email.getD "").trim.toLower) }
    { db with clientes := db.clientes ++ [c], nextClienteId := db.nextClienteId + 1 }
  else db

/-- `clientes_editar` (`app.py` lines 245-259): 404 when the id is
unknown, otherwise on a valid form overwrite the customer's fields. -/
def clientes_editar (db : DB) (cid : Int) (valid : Bool) (nombre : String)
    (direccion telefono email : Option String) : DB :=
  match db.clientes.find? (fun c => c.id == cid) with
  | none => db
  | some _ =>
    if valid then
      { db with clientes := db.clientes.map (fun c =>
          if c.id == cid then
            { c with
              nombre := nombre.trim
              direccion := orNone (direccion.getD "").trim
              telefono := orNone (telefono.getD "").trim
              email := orNone ((email.getD "").trim.toLower) }
          else c) }
    else db

/-- `clientes_eliminar` (`app.py` lines 261-272): 404 when the id is
unknown; rejected with a warning when the customer has any invoice
(`cliente.facturas.count() > 0`); otherwise the customer is deleted. -/
def clientes_eliminar (db : DB) (cid : Int) : DeleteOutcome × DB :=
  match db.clientes.find? (fun c => c.id == cid) with
  | none => (.notFound, db)
  | some _ =>
    if 0 < (facturasDe db cid).length then
      (.rejected "No se puede eliminar: el cliente tiene facturas asociadas.", db)
    else
      (.deleted, { db with clientes := db.clientes.filter (fun c => !(c.id == cid)) })

/-- `productos_nuevo` (`app.py` lines 365-380): on a valid form insert
the product. -/
def productos_nuevo (db : DB) (valid : Bool) (descripcion : String)
    (precio : Int) (stock : Int) : DB :=
  if valid then
    let p : Producto :=
      { id := db.nextProductoId
        descripcion := descripcion.trim
        precio := precio
        stock := stock }
    { db with productos := db.productos ++ [p], nextProductoId := db.nextProductoId + 1 }
  else db

/-- `productos_editar` (`app.py` lines 382-395): 404 when the id is
unknown, otherwise on a valid form overwrite the product's fields. -/
def productos_editar (db : DB) (pid : Int) (valid : Bool) (descripcion : String)
    (precio : Int) (stock : Int) : DB :=
  match db.productos.find? (fun p => p.id == pid) with
  | none => db
  | some _ =>
    if valid then
      { db with productos := db.productos.map (fun p =>
          if p.id == pid then
            { p with descripcion := descripcion.trim, precio := precio, stock := stock }
          else p) }
    else db

/-- `productos_eliminar` (`app.py` lines 397-408): 404 when the id is
unknown; rejected with a warning when any invoice line references the
product (`producto.detalles` non-empty); otherwise deleted. -/
def productos_eliminar (db : DB) (pid : Int) : DeleteOutcome × DB :=
  match db.productos.find? (fun p => p.id == pid) with
  | none => (.notFound, db)
  | some _ =>
    if !(detallesDe db pid).isEmpty then
      (.rejected "No se puede eliminar: el producto está usado en facturas.", db)
    else
      (.deleted, { db with productos := db.productos.filter (fun p => !(p.id == pid)) })

/-! ### Invoice listing and sales report (`app.py` lines 419-469) -/

/-- Strict `order_by(fecha desc, id desc)` precedence: `f` sorts at or
before `g` when its date is later, or dates are equal and its id is not
smaller. -/
def facBefore (f g : Factura) : Bool :=
  if f.fecha == g.fecha then decide (g.id ≤ f.id) else dtLe g.fecha f.fecha

/-- `order_by(Factura.fecha.desc(), Factura.id.desc())`. -/
def ordenFacturas (l : List Factura) : List Factura :=
  List.insertionSort (fun f g => facBefore f g = true) l

/-- `facturas_list` (`app.py` lines 419-446): the invoices passing the
optional customer filter (applied only for a truthy `cliente_id`) and
the optional date-range filters (`fecha >= desde` at midnight,
`fecha <= hasta` moved to the end of its day), newest first. -/
def facturas_list (db : DB) (cliente_id : Option Int) (desde hasta : Option String) :
    List Factura :=
  let desde_dt := _parse_date_yyyy_mm_dd desde
  let hasta_dt := _parse_date_yyyy_mm_dd hasta
  let q := db.facturas
  let q := if truthyInt cliente_id then
      q.filter (fun f => f.cliente_id == cliente_id.getD 0)
    else q
  let q := match desde_dt with
    | some d => q.filter (fun f => dtLe d f.fecha)
    | none => q
  let q := match hasta_dt with
    | some h => q.filter (fun f => dtLe f.fecha (endOfDay h))
    | none => q
  ordenFacturas q

/-- The data `reportes_ventas` renders: the filtered invoices, their
count and the sum of their totals. -/
structure VentasReport where
  facturas : List Factura
  total : Int
  conteo : Nat
deriving DecidableEq, Repr

/-- `reportes_ventas` (`app.py` lines 449-469): the invoices passing
the optional date-range filters, newest first, with
`total = sum(f.total)` and `conteo = len(facturas)`. -/
def reportes_ventas (db : DB) (desde hasta : Option String) : VentasReport :=
  let desde_dt := _parse_date_yyyy_mm_dd desde
  let hasta_dt := _parse_date_yyyy_mm_dd hasta
  let q := db.facturas
  let q := match desde_dt with
    | some d => q.filter (fun f => dtLe d f.fecha)
    | none => q
  let q := match hasta_dt with
    | some h => q.filter (fun f => dtLe f.fecha (endOfDay h))
    | none => q
  let facturas := ordenFacturas q
  { facturas := facturas
    total := (facturas.map (fun f => f.total)).sum
    conteo := facturas.length }

/-! ### The operations that mutate stored state

Every state-mutating entry point of the application: the customer and
product create/edit/delete handlers, the invoice-creation POST, and the
`resetdb` CLI command (`app.py` lines 543-551), which clears the four
tables while keeping users. Read-only routes (listings, detail pages,
reports, `debug_conteos`) and the auth routes do not touch these tables.
The `valid` flag of a create/edit operation stands for the verdict of
WTForms `validate_on_submit` (an invalid form re-renders and mutates
nothing). -/

/-- A state-mutating operation of the application. -/
inductive Op where
  | clientesNuevo (valid : Bool) (nombre : String) (direccion telefono email : Option String)
  | clientesEditar (cid : Int) (valid : Bool) (nombre : String)
      (direccion telefono email : Option String)
  | clientesEliminar (cid : Int)
  | productosNuevo (valid : Bool) (descripcion : String) (precio : Int) (stock : Int)
  | productosEditar (pid : Int) (valid : Bool) (descripcion : String)
      (precio : Int) (stock : Int)
  | productosEliminar (pid : Int)
  | facturasNueva (cliente_id : Option Int) (rows : List Row) (now : PyDateTime)
  | resetdb
deriving DecidableEq, Repr

/-- Effect of one operation on the stored state. -/
def applyOp (db : DB) : Op → DB
  | .clientesNuevo valid nombre direccion telefono email =>
      clientes_nuevo db valid nombre direccion telefono email
  | .clientesEditar cid valid nombre direccion telefono email =>
      clientes_editar db cid valid nombre direccion telefono email
  | .clientesEliminar cid => (clientes_eliminar db cid).2
  | .productosNuevo valid descripcion precio stock =>
      productos_nuevo db valid descripcion precio stock
  | .productosEditar pid valid descripcion precio stock =>
      productos_editar db pid valid descripcion precio stock
  | .productosEliminar pid => (productos_eliminar db pid).2
  | .facturasNueva cliente_id rows now => (facturas_nueva_post db cliente_id rows now).2
  | .resetdb => { db with clientes := [], productos := [], facturas := [], detalles := [] }

/-- Effect of a sequence of operations. -/
def applyOps (db : DB) (ops : List Op) : DB :=
  ops.foldl applyOp db

/-- The state after `db.create_all()` and the seed block (`app.py` lines
514-531): one demo customer and one demo product (price 100.00,
stock 10), no invoices. -/
def initialDB : DB :=
  { clientes := [{ id := 1
                   nombre := "Cliente demo"
                   direccion := none
                   telefono := none
                   email := some "cliente@demo.com" }]
    productos := [{ id := 1
                    descripcion := "Producto demo"
                    precio := 10000
                    stock := 10 }]
    facturas := []
    detalles := []
    nextClienteId := 2
    nextProductoId := 2
    nextFacturaId := 1
    nextDetalleId := 1 }

/-! ### Routes and role gating (`app.py` decorators) -/

namespace Routes

/-- The HTTP routes of the application (`app.py` lines 196-509). -/
inductive Route where
  | index
  | login
  | logout
  | clientes_list
  | clientes_nuevo
  | clientes_editar
  | clientes_eliminar
  | facturas_nueva
  | facturas_detalle
  | productos_list
  | productos_nuevo
  | productos_editar
  | productos_eliminar
  | facturas_list
  | reportes_ventas
  | reportes_facturas_por_cliente
  | debug_conteos
deriving DecidableEq, Repr

/-- Whether the route carries `@login_required`: all of them except
`/login` itself. -/
def loginRequired : Route → Bool
  | .login => false
  | _ => true

/-- The `@roles_required(...)` decoration of each route, read off the
decorators in `app.py`: `some` lists the allowed roles, `none` means
the route has no role restriction. -/
def requiredRoles : Route → Option (List String)
  | .clientes_list => some ["admin"]
  | .clientes_nuevo => some ["admin"]
  | .clientes_editar => some ["admin"]
  | .clientes_eliminar => some ["admin"]
  | .productos_list => some ["admin"]
  | .productos_nuevo => some ["admin"]
  | .productos_editar => some ["admin"]
  | .productos_eliminar => some ["admin"]
  | .reportes_ventas => some ["admin"]
  | .reportes_facturas_por_cliente => some ["admin"]
  | .debug_conteos => some ["admin"]
  | _ => none

/-- Disposition of a request before the handler body runs. -/
inductive Access where
  | granted
  | redirectLogin
  | forbidden
deriving DecidableEq, Repr

/-- The combined effect of `@login_required` (redirect to `/login` when
unauthenticated) and `roles_required` (`app.py` lines 62-71: 403 when
the principal is unauthenticated or its role is not in the allowed
list). -/
def routeAccess (authenticated : Bool) (role : String) (r : Route) : Access :=
  if loginRequired r && !authenticated then .redirectLogin
  else
    match requiredRoles r with
    | none => .granted
    | some roles => if !authenticated || !(roles.contains role) then .forbidden else .granted

/-- The routes the claim describes as admin-gated: customer CRUD,
product CRUD, the two report routes and the debug-counts route. -/
def adminRoutes : List Route :=
  [.clientes_list, .clientes_nuevo, .clientes_editar, .clientes_eliminar,
   .productos_list, .productos_nuevo, .productos_editar, .productos_eliminar,
   .reportes_ventas, .reportes_facturas_por_cliente, .debug_conteos]

end Routes

/-! ### Spec-side predicates and invariant -/

/-- Spec-side statement of the date-range filter (section 4.3 of the
spec): an invoice matches when its timestamp is at or after the start of
the `desde` day and at or before the last microsecond of the `hasta`
day, each bound applied only when its parameter parses as a date. Used
to compare the listing/report code against the spec. -/
def matchesDateRange (desde hasta : Option String) (f : Factura) : Bool :=
  (match _parse_date_yyyy_mm_dd desde with
   | some d => dtLe d f.fecha
   | none => true) &&
  (match _parse_date_yyyy_mm_dd hasta with
   | some h => dtLe f.fecha (endOfDay h)
   | none => true)

/-- The inductive invariant of the stored state: invoice ids and the
invoice ids referenced by lines stay below the autoincrement counter,
and every invoice's total is the sum of its lines' subtotals. -/
def TotalsInvariant (db : DB) : Prop :=
  (∀ f ∈ db.facturas, f.id < db.nextFacturaId) ∧
  (∀ d ∈ db.detalles, d.factura_id < db.nextFacturaId) ∧
  (∀ f ∈ db.facturas, f.total = recalcular_total (lineasDe db f.id))

/-! ### Concrete data for the spec scenarios -/

/-- A fixed request timestamp for concrete runs. -/
def demoNow : PyDateTime := ⟨2024, 1, 1, 12, 0, 0, 0⟩

/-- The spec scenario submission: the demo product (price 100.00),
quantity 3, for the demo customer. -/
def demoOps : List Op := [.facturasNueva (some 1) [(some 1, some 3)] demoNow]

/-- The invoice the scenario submission creates. -/
def demoFac : Factura := { id := 1, cliente_id := 1, fecha := demoNow, total := 30000 }

/-- The two-row same-product submission of the spec scenario:
quantities 5 and 6 for product 1 (stock 10). -/
def demoRowsOver : List Row := [(some 1, some 5), (some 1, some 6)]

/-- The seeded demo customer. -/
def demoCliente : Cliente :=
  { id := 1, nombre := "Cliente demo", direccion := none, telefono := none,
    email := some "cliente@demo.com" }

/-- The seeded demo product. -/
def demoProducto : Producto :=
  { id := 1, descripcion := "Producto demo", precio := 10000, stock := 10 }

/-! ## Lemmas about row collection -/

theorem collectItems_eq_none_iff (rows : List Row) :
    collectItems rows = none ↔
      ∃ r ∈ rows, truthyInt r.1 = true ∧ truthyInt r.2 = true ∧ r.2.getD 0 ≤ 0 := by
  induction rows with
  | nil => simp [collectItems]
  | cons r rest ih =>
    obtain ⟨p, q⟩ := r
    rw [List.exists_mem_cons_iff]
    by_cases hp : truthyInt p = true
    · by_cases hq : truthyInt q = true
      · by_cases hle : q.getD 0 ≤ 0
        · simp [collectItems, hp, hq, hle]
        · cases hrest : collectItems rest with
          | none =>
            rw [hrest] at ih
            simp [collectItems, hp, hq, hle, hrest, ih.mp rfl]
          | some items =>
            have hno : ¬∃ r ∈ rest, truthyInt r.1 = true ∧ truthyInt r.2 = true ∧
                r.2.getD 0 ≤ 0 := by
              rw [← ih, hrest]
              simp
            simp [collectItems, hp, hq, hle, hrest, hno]
      · simp [collectItems, hp, hq, ih]
    · simp [collectItems, hp, ih]

theorem collectItems_eq_some_nil_iff (rows : List Row) :
    collectItems rows = some [] ↔
      ∀ r ∈ rows, ¬(truthyInt r.1 = true ∧ truthyInt r.2 = true) := by
  induction rows with
  | nil => simp [collectItems]
  | cons r rest ih =>
    obtain ⟨p, q⟩ := r
    rw [List.forall_mem_cons]
    by_cases hp : truthyInt p = true
    · by_cases hq : truthyInt q = true
      · by_cases hle : q.getD 0 ≤ 0
        · simp [collectItems, hp, hq, hle]
        · cases hrest : collectItems rest with
          | none => simp [collectItems, hp, hq, hle, hrest]
          | some items => simp [collectItems, hp, hq, hle, hrest]
      · simp [collectItems, hp, hq, ih]
    · simp [collectItems, hp, ih]

/-- C4: with a customer selected, the rows whose product id and
quantity are both non-empty are collected; if any collected row has
quantity `≤ 0` the submission is rejected with a warning and no state
change, and if no rows are collected the submission is likewise
rejected unchanged. -/
theorem facturas_nueva_row_validation (db : DB) (cid : Option Int) (rows : List Row)
    (now : PyDateTime) (hcid : truthyInt cid = true) :
    ((∃ r ∈ rows, truthyInt r.1 = true ∧ truthyInt r.2 = true ∧ r.2.getD 0 ≤ 0) →
       facturas_nueva_post db cid rows now =
         (.rejected "La cantidad debe ser mayor que 0.", db)) ∧
    ((∀ r ∈ rows, ¬(truthyInt r.1 = true ∧ truthyInt r.2 = true)) →
       facturas_nueva_post db cid rows now =
         (.rejected "Agrega al menos un producto.", db)) := by
  constructor
  · intro hbad
    have hnone : collectItems rows = none := (collectItems_eq_none_iff rows).mpr hbad
    simp [facturas_nueva_post, hcid, hnone]
  · intro hempty
    have hnil : collectItems rows = some [] := (collectItems_eq_some_nil_iff rows).mpr hempty
    simp [facturas_nueva_post, hcid, hnil]

/-- Witness for C4: a concrete run with a negative quantity is rejected
with the quantity warning and leaves the seeded state unchanged. -/
theorem facturas_nueva_row_validation_witness :
    truthyInt (some 1) = true ∧
    (∃ r ∈ [((some 1 : Option Int), (some (-2) : Option Int))],
        truthyInt r.1 = true ∧ truthyInt r.2 = true ∧ r.2.getD 0 ≤ 0) ∧
    facturas_nueva_post initialDB (some 1) [(some 1, some (-2))] demoNow =
      (.rejected "La cantidad debe ser mayor que 0.", initialDB) :=
  ⟨by decide, by decide,
    (facturas_nueva_row_validation initialDB (some 1) [(some 1, some (-2))] demoNow
        (by decide)).1 (by decide)⟩

/-! ## Invalid date parameters -/

theorem parse_date_none : _parse_date_yyyy_mm_dd none = none := rfl

/-- C9: a `desde` or `hasta` value that does not parse as a
`YYYY-MM-DD` date behaves exactly like an absent parameter, in both the
invoice listing and the sales report — the corresponding date filter is
simply not applied and the request still succeeds. -/
theorem invalid_date_param_ignored (db : DB) (cid : Option Int) (other : Option String)
    (s : String) (hs : _parse_date_yyyy_mm_dd (some s) = none) :
    facturas_list db cid (some s) other = facturas_list db cid none other ∧
    facturas_list db cid other (some s) = facturas_list db cid other none ∧
    reportes_ventas db (some s) other = reportes_ventas db none other ∧
    reportes_ventas db other (some s) = reportes_ventas db other none := by
  refine ⟨?_, ?_, ?_, ?_⟩ <;>
    simp only [facturas_list, reportes_ventas, hs, parse_date_none]

/-- Witness for C9: the out-of-range date string `2020-13-05` is
parsed to nothing and the listing treats it like a missing parameter. -/
theorem invalid_date_param_ignored_witness :
    _parse_date_yyyy_mm_dd (some "2020-13-05") = none ∧
    facturas_list initialDB none (some "2020-13-05") none =
      facturas_list initialDB none none none :=
  ⟨by decide,
    (invalid_date_param_ignored initialDB none none "2020-13-05" (by decide)).1⟩

/-! ## Role gating of routes -/

/-- C10: for an authenticated principal, invoice creation, invoice
detail and the invoice listing are accessible whatever the role, and a
route answers 403 exactly when it is one of the customer/product CRUD
routes, the report routes or the debug-counts route and the role is not
`admin`. -/
theorem route_role_gating (role : String) (r : Routes.Route) :
    Routes.routeAccess true role .facturas_nueva = .granted ∧
    Routes.routeAccess true role .facturas_detalle = .granted ∧
    Routes.routeAccess true role .facturas_list = .granted ∧
    (Routes.routeAccess true role r = .forbidden ↔
      r ∈ Routes.adminRoutes ∧ role ≠ "admin") := by
  refine ⟨by simp [Routes.routeAccess, Routes.loginRequired, Routes.requiredRoles],
    by simp [Routes.routeAccess, Routes.loginRequired, Routes.requiredRoles],
    by simp [Routes.routeAccess, Routes.loginRequired, Routes.requiredRoles], ?_⟩
  by_cases hrole : role = "admin"
  · subst hrole
    cases r <;>
      simp [Routes.routeAccess, Routes.loginRequired, Routes.requiredRoles,
        Routes.adminRoutes, List.contains]
  · have hbeq : ("admin" == role) = false := by
      simp [beq_iff_eq]
      exact fun h => hrole h.symm
    cases r <;>
      simp [Routes.routeAccess, Routes.loginRequired, Routes.requiredRoles,
        Routes.adminRoutes, List.contains, hbeq, hrole]

/-! ## Deletion guards -/

theorem filter_length_pos_iff {α : Type} (l : List α) (p : α → Bool) :
    0 < (l.filter p).length ↔ ∃ a ∈ l, p a = true := by
  rw [List.length_pos_iff_exists_mem]
  simp [List.mem_filter]

/-- C6: when customer `cid` exists, its deletion is rejected with the
warning (and the state is untouched) exactly when some invoice
references it; when no invoice references it the customer row is
removed and nothing else changes. -/
theorem clientes_eliminar_guard (db : DB) (cid : Int) (c : Cliente)
    (hc : db.clientes.find? (fun x => x.id == cid) = some c) :
    ((clientes_eliminar db cid).1 =
        .rejected "No se puede eliminar: el cliente tiene facturas asociadas." ∧
      (clientes_eliminar db cid).2 = db
     ↔ ∃ f ∈ db.facturas, f.cliente_id = cid) ∧
    ((∀ f ∈ db.facturas, f.cliente_id ≠ cid) →
      (clientes_eliminar db cid).1 = .deleted ∧
      (clientes_eliminar db cid).2 =
        { db with clientes := db.clientes.filter (fun x => !(x.id == cid)) } ∧
      ∀ x ∈ (clientes_eliminar db cid).2.clientes, x.id ≠ cid) := by
  constructor
  · by_cases hf : 0 < (facturasDe db cid).length
    · have hex : ∃ f ∈ db.facturas, f.cliente_id = cid := by
        have := (filter_length_pos_iff db.facturas (fun f => f.cliente_id == cid)).mp hf
        simpa [beq_iff_eq] using this
      simp [clientes_eliminar, hc, hf, hex]
    · have hex : ¬∃ f ∈ db.facturas, f.cliente_id = cid := by
        intro h
        exact hf ((filter_length_pos_iff db.facturas (fun f => f.cliente_id == cid)).mpr
          (by simpa [beq_iff_eq] using h))
      simp [clientes_eliminar, hc, hf, hex]
  · intro hnone
    have hf : ¬ 0 < (facturasDe db cid).length := by
      intro h
      obtain ⟨f, hfm, hfe⟩ :=
        (filter_length_pos_iff db.facturas (fun f => f.cliente_id == cid)).mp h
      exact hnone f hfm (by simpa [beq_iff_eq] using hfe)
    refine ⟨by simp [clientes_eliminar, hc, hf], by simp [clientes_eliminar, hc, hf], ?_⟩
    intro x hx
    simp only [clientes_eliminar, hc, if_neg hf, List.mem_filter] at hx
    simpa [beq_iff_eq] using hx.2

/-- Witness for C6: deleting the seeded demo customer, which has no
invoices, succeeds and removes it. -/
theorem clientes_eliminar_guard_witness :
    initialDB.clientes.find? (fun x => x.id == 1) = some demoCliente ∧
    (∀ f ∈ initialDB.facturas, f.cliente_id ≠ 1) ∧
    ((clientes_eliminar initialDB 1).1 = .deleted ∧
      (clientes_eliminar initialDB 1).2 =
        { initialDB with clientes := initialDB.clientes.filter (fun x => !(x.id == 1)) } ∧
      ∀ x ∈ (clientes_eliminar initialDB 1).2.clientes, x.id ≠ 1) :=
  ⟨by decide, by decide,
    (clientes_eliminar_guard initialDB 1 demoCliente (by decide)).2 (by decide)⟩

/-- C7: when product `pid` exists, its deletion is rejected with the
warning (and the state is untouched) exactly when some invoice line
references it; when no line references it the product row is removed
and nothing else changes. -/
theorem productos_eliminar_guard (db : DB) (pid : Int) (p : Producto)
    (hp : db.productos.find? (fun x => x.id == pid) = some p) :
    ((productos_eliminar db pid).1 =
        .rejected "No se puede eliminar: el producto está usado en facturas." ∧
      (productos_eliminar db pid).2 = db
     ↔ ∃ d ∈ db.detalles, d.producto_id = pid) ∧
    ((∀ d ∈ db.detalles, d.producto_id ≠ pid) →
      (productos_eliminar db pid).1 = .deleted ∧
      (productos_eliminar db pid).2 =
        { db with productos := db.productos.filter (fun x => !(x.id == pid)) } ∧
      ∀ x ∈ (productos_eliminar db pid).2.productos, x.id ≠ pid) := by
  constructor
  · by_cases hd : (detallesDe db pid).isEmpty = true
    · have hex : ¬∃ d ∈ db.detalles, d.producto_id = pid := by
        intro ⟨d, hdm, hde⟩
        rw [List.isEmpty_iff] at hd
        have : d ∈ detallesDe db pid := by
          simp [detallesDe, List.mem_filter, hdm, beq_iff_eq, hde]
        simp [hd] at this
      simp [productos_eliminar, hp, hd, hex]
    · have hne : detallesDe db pid ≠ [] := by
        intro h0
        exact hd (by rw [List.isEmpty_iff]; exact h0)
      obtain ⟨d, hdm⟩ := List.exists_mem_of_ne_nil _ hne
      have hdm' := hdm
      rw [detallesDe, List.mem_filter] at hdm'
      have hex : ∃ d ∈ db.detalles, d.producto_id = pid :=
        ⟨d, hdm'.1, by simpa [beq_iff_eq] using hdm'.2⟩
      simp [productos_eliminar, hp, hd, hex]
  · intro hnone
    have hd : (detallesDe db pid).isEmpty = true := by
      rw [List.isEmpty_iff, detallesDe, List.filter_eq_nil_iff]
      intro d hdm
      simp [beq_iff_eq]
      exact hnone d hdm
    refine ⟨by simp [productos_eliminar, hp, hd], by simp [productos_eliminar, hp, hd], ?_⟩
    intro x hx
    simp [productos_eliminar, hp, hd, List.mem_filter] at hx
    exact hx.2

/-- Witness for C7: deleting the seeded demo product, which appears in
no invoice line, succeeds and removes it. -/
theorem productos_eliminar_guard_witness :
    initialDB.productos.find? (fun x => x.id == 1) = some demoProducto ∧
    (∀ d ∈ initialDB.detalles, d.producto_id ≠ 1) ∧
    ((productos_eliminar initialDB 1).1 = .deleted ∧
      (productos_eliminar initialDB 1).2 =
        { initialDB with productos := initialDB.productos.filter (fun x => !(x.id == 1)) } ∧
      ∀ x ∈ (productos_eliminar initialDB 1).2.productos, x.id ≠ 1) :=
  ⟨by decide, by decide,
    (productos_eliminar_guard initialDB 1 demoProducto (by decide)).2 (by decide)⟩

/-! ## Lemmas about quantity aggregation -/

theorem sumQty_nil (pid : Int) : sumQty [] pid = 0 := rfl

theorem sumQty_cons (k v pid : Int) (l : List (Int × Int)) :
    sumQty ((k, v) :: l) pid = (if k = pid then v else 0) + sumQty l pid := by
  by_cases h : k = pid <;> simp [sumQty, List.filter_cons, h]

theorem sumQty_append (l₁ l₂ : List (Int × Int)) (pid : Int) :
    sumQty (l₁ ++ l₂) pid = sumQty l₁ pid + sumQty l₂ pid := by
  simp [sumQty, List.filter_append]

theorem sumQty_eq_zero_of_not_mem {l : List (Int × Int)} {pid : Int}
    (h : pid ∉ l.map Prod.fst) : sumQty l pid = 0 := by
  have : l.filter (fun e => e.1 == pid) = [] := by
    rw [List.filter_eq_nil_iff]
    intro e he
    simp only [beq_iff_eq]
    intro he1
    exact h (List.mem_map.mpr ⟨e, he, he1⟩)
  simp [sumQty, this]

theorem any_key_iff (acc : List (Int × Int)) (pid : Int) :
    acc.any (fun e => e.1 == pid) = true ↔ pid ∈ acc.map Prod.fst := by
  simp [List.any_eq_true, List.mem_map, beq_iff_eq]

theorem aggInsert_keys_of_mem {acc : List (Int × Int)} {pid : Int} (q : Int)
    (h : pid ∈ acc.map Prod.fst) :
    (aggInsert acc pid q).map Prod.fst = acc.map Prod.fst := by
  simp only [aggInsert, if_pos ((any_key_iff acc pid).mpr h)]
  rw [List.map_map]
  apply List.map_congr_left
  intro e _
  by_cases he : e.1 = pid <;> simp [he]

theorem aggInsert_keys_of_not_mem {acc : List (Int × Int)} {pid : Int} (q : Int)
    (h : pid ∉ acc.map Prod.fst) :
    (aggInsert acc pid q).map Prod.fst = acc.map Prod.fst ++ [pid] := by
  have hc : ¬ acc.any (fun e => e.1 == pid) = true :=
    fun hc => h ((any_key_iff acc pid).mp hc)
  simp only [aggInsert, if_neg hc]
  simp

theorem aggInsert_mem_keys (acc : List (Int × Int)) (p0 q0 pid : Int) :
    pid ∈ (aggInsert acc p0 q0).map Prod.fst ↔
      pid ∈ acc.map Prod.fst ∨ pid = p0 := by
  by_cases h : p0 ∈ acc.map Prod.fst
  · rw [aggInsert_keys_of_mem q0 h]
    constructor
    · exact Or.inl
    · rintro (hm | rfl)
      · exact hm
      · exact h
  · rw [aggInsert_keys_of_not_mem q0 h]
    simp

theorem aggInsert_nodup {acc : List (Int × Int)} {pid : Int} (q : Int)
    (h : (acc.map Prod.fst).Nodup) :
    ((aggInsert acc pid q).map Prod.fst).Nodup := by
  by_cases hm : pid ∈ acc.map Prod.fst
  · rw [aggInsert_keys_of_mem q hm]
    exact h
  · rw [aggInsert_keys_of_not_mem q hm, ← List.concat_eq_append]
    exact List.Nodup.concat hm h

theorem sumQty_bump (p0 q0 pid : Int) :
    ∀ acc : List (Int × Int), (acc.map Prod.fst).Nodup → p0 ∈ acc.map Prod.fst →
      sumQty (acc.map (fun e => if e.1 == p0 then (e.1, e.2 + q0) else e)) pid
        = sumQty acc pid + (if p0 = pid then q0 else 0) := by
  intro acc
  induction acc with
  | nil =>
    intro _ hm
    simp at hm
  | cons a acc ih =>
    intro hnd hm
    obtain ⟨k, v⟩ := a
    simp only [List.map_cons, List.nodup_cons] at hnd
    simp only [List.map_cons, List.mem_cons] at hm
    by_cases hk : k = p0
    · subst hk
      have htail : acc.map (fun e => if e.1 == k then (e.1, e.2 + q0) else e) = acc := by
        have hcg : List.map (fun e => if e.1 == k then (e.1, e.2 + q0) else e) acc =
            List.map id acc := by
          apply List.map_congr_left
          intro e he
          have hne : (e.1 == k) = false := by
            rw [beq_eq_false_iff_ne]
            intro h1
            apply hnd.1
            rw [← h1]
            exact List.mem_map.mpr ⟨e, he, rfl⟩
          simp [hne]
        simpa using hcg
      simp only [List.map_cons]
      rw [show (if ((k : Int) == k) = true then ((k : Int), v + q0) else (k, v)) =
          (k, v + q0) from by simp]
      rw [htail, sumQty_cons, sumQty_cons]
      by_cases hp : k = pid <;> simp [hp]
      omega
    · have hm' : p0 ∈ acc.map Prod.fst := by
        rcases hm with h | h
        · exact absurd h.symm hk
        · exact h
      simp only [List.map_cons]
      rw [show (if ((k : Int) == p0) = true then ((k : Int), v + q0) else (k, v)) =
          (k, v) from by simp [hk]]
      rw [sumQty_cons, sumQty_cons, ih hnd.2 hm']
      omega

theorem sumQty_aggInsert (acc : List (Int × Int)) (p0 q0 pid : Int)
    (hnd : (acc.map Prod.fst).Nodup) :
    sumQty (aggInsert acc p0 q0) pid = sumQty acc pid + (if p0 = pid then q0 else 0) := by
  by_cases hm : p0 ∈ acc.map Prod.fst
  · have hc : acc.any (fun e => e.1 == p0) = true := (any_key_iff acc p0).mpr hm
    simp only [aggInsert, if_pos hc]
    exact sumQty_bump p0 q0 pid acc hnd hm
  · have hc : ¬ acc.any (fun e => e.1 == p0) = true :=
      fun hc => hm ((any_key_iff acc p0).mp hc)
    simp only [aggInsert, if_neg hc]
    rw [sumQty_append, sumQty_cons, sumQty_nil]
    omega

theorem aggFold_nodup (items : List (Int × Int)) :
    ∀ acc : List (Int × Int), (acc.map Prod.fst).Nodup →
      (((items.foldl (fun acc e => aggInsert acc e.1 e.2) acc)).map Prod.fst).Nodup := by
  induction items with
  | nil =>
    intro acc h
    exact h
  | cons e rest ih =>
    intro acc h
    exact ih (aggInsert acc e.1 e.2) (aggInsert_nodup e.2 h)

theorem aggFold_mem_keys (items : List (Int × Int)) :
    ∀ acc : List (Int × Int), ∀ pid : Int,
      (pid ∈ (items.foldl (fun acc e => aggInsert acc e.1 e.2) acc).map Prod.fst ↔
        pid ∈ acc.map Prod.fst ∨ pid ∈ items.map Prod.fst) := by
  induction items with
  | nil =>
    intro acc pid
    simp
  | cons e rest ih =>
    intro acc pid
    rw [List.foldl_cons, ih (aggInsert acc e.1 e.2) pid, aggInsert_mem_keys]
    simp only [List.map_cons, List.mem_cons]
    tauto

theorem aggFold_sumQty (items : List (Int × Int)) :
    ∀ acc : List (Int × Int), ∀ pid : Int, (acc.map Prod.fst).Nodup →
      sumQty (items.foldl (fun acc e => aggInsert acc e.1 e.2) acc) pid =
        sumQty acc pid + sumQty items pid := by
  induction items with
  | nil =>
    intro acc pid _
    simp [sumQty_nil]
  | cons e rest ih =>
    intro acc pid hnd
    obtain ⟨p0, q0⟩ := e
    rw [List.foldl_cons, ih (aggInsert acc p0 q0) pid (aggInsert_nodup q0 hnd),
      sumQty_aggInsert acc p0 q0 pid hnd, sumQty_cons]
    omega

theorem aggItems_nodup (items : List (Int × Int)) :
    ((aggItems items).map Prod.fst).Nodup :=
  aggFold_nodup items [] (by simp)

theorem sumQty_aggItems (items : List (Int × Int)) (pid : Int) :
    sumQty (aggItems items) pid = sumQty items pid := by
  have := aggFold_sumQty items [] pid (by simp)
  simpa [sumQty_nil] using this

theorem mem_keys_aggItems (items : List (Int × Int)) (pid : Int) :
    pid ∈ (aggItems items).map Prod.fst ↔ pid ∈ items.map Prod.fst := by
  have := aggFold_mem_keys items [] pid
  simpa using this

theorem sumQty_of_mem_nodup :
    ∀ l : List (Int × Int), (l.map Prod.fst).Nodup → ∀ pid q : Int, (pid, q) ∈ l →
      sumQty l pid = q := by
  intro l
  induction l with
  | nil =>
    intro _ pid q h
    simp at h
  | cons a l ih =>
    intro hnd pid q h
    obtain ⟨k, v⟩ := a
    simp only [List.map_cons, List.nodup_cons] at hnd
    rcases List.mem_cons.mp h with h1 | h1
    · have h1a : pid = k := congrArg Prod.fst h1
      have h1b : q = v := congrArg Prod.snd h1
      subst h1a
      subst h1b
      rw [sumQty_cons, if_pos rfl, sumQty_eq_zero_of_not_mem hnd.1]
      omega
    · have hkp : k ≠ pid := by
        intro hkp
        apply hnd.1
        rw [hkp]
        exact List.mem_map.mpr ⟨(pid, q), h1, rfl⟩
      rw [sumQty_cons, if_neg hkp, ih hnd.2 pid q h1]
      omega

theorem filter_key_of_nodup :
    ∀ l : List (Int × Int), (l.map Prod.fst).Nodup → ∀ pid q : Int, (pid, q) ∈ l →
      l.filter (fun e => e.1 == pid) = [(pid, q)] := by
  intro l
  induction l with
  | nil =>
    intro _ pid q h
    simp at h
  | cons a l ih =>
    intro hnd pid q h
    obtain ⟨k, v⟩ := a
    simp only [List.map_cons, List.nodup_cons] at hnd
    rcases List.mem_cons.mp h with h1 | h1
    · have h1a : pid = k := congrArg Prod.fst h1
      have h1b : q = v := congrArg Prod.snd h1
      subst h1a
      subst h1b
      have hrest : l.filter (fun e => e.1 == pid) = [] := by
        rw [List.filter_eq_nil_iff]
        intro e he
        simp only [beq_iff_eq]
        intro h2
        exact hnd.1 (List.mem_map.mpr ⟨e, he, h2⟩)
      rw [List.filter_cons, if_pos (by simp), hrest]
    · have hkp : (k == pid) = false := by
        rw [beq_eq_false_iff_ne]
        intro hkp
        apply hnd.1
        rw [hkp]
        exact List.mem_map.mpr ⟨(pid, q), h1, rfl⟩
      rw [List.filter_cons, if_neg (by simp [hkp]), ih hnd.2 pid q h1]

/-! ## Lemmas about line building and stock decrement -/

theorem byId_eq_some_id {db : DB} {pid : Int} {p : Producto}
    (h : byId db pid = some p) : p.id = pid := by
  have := List.find?_some h
  simpa [beq_iff_eq] using this

theorem byId_mem {db : DB} {pid : Int} {p : Producto}
    (h : byId db pid = some p) : p ∈ db.productos :=
  List.mem_of_find?_eq_some h

theorem buildDetalles_factura_id (db : DB) (facId : Int) :
    ∀ agg : List (Int × Int), ∀ detId : Int,
      ∀ d ∈ buildDetalles db facId detId agg, d.factura_id = facId := by
  intro agg
  induction agg with
  | nil =>
    intro detId d hd
    simp [buildDetalles] at hd
  | cons e rest ih =>
    intro detId d hd
    obtain ⟨pid, qty⟩ := e
    rw [buildDetalles] at hd
    cases hb : byId db pid with
    | none =>
      rw [hb] at hd
      exact ih detId d hd
    | some p =>
      rw [hb] at hd
      rcases List.mem_cons.mp hd with h1 | h1
      · rw [h1]
      · exact ih (detId + 1) d h1

theorem buildDetalles_proj (db : DB) (facId : Int) :
    ∀ agg : List (Int × Int), ∀ detId : Int,
      (∀ pid ∈ agg.map Prod.fst, (byId db pid).isSome = true) →
      (buildDetalles db facId detId agg).map (fun d => (d.producto_id, d.cantidad)) = agg := by
  intro agg
  induction agg with
  | nil =>
    intro detId _
    simp [buildDetalles]
  | cons e rest ih =>
    intro detId hfound
    obtain ⟨pid, qty⟩ := e
    have hpid : (byId db pid).isSome = true := hfound pid (by simp)
    obtain ⟨p, hp⟩ := Option.isSome_iff_exists.mp hpid
    rw [buildDetalles, hp, List.map_cons]
    rw [ih (detId + 1) (fun x hx => hfound x (by simp [hx]))]
    rw [byId_eq_some_id hp]

theorem buildDetalles_entry (db : DB) (facId : Int) :
    ∀ agg : List (Int × Int), ∀ detId : Int, ∀ pid q : Int, (pid, q) ∈ agg →
      ∀ p : Producto, byId db pid = some p →
      ∃ d ∈ buildDetalles db facId detId agg,
        d.factura_id = facId ∧ d.producto_id = pid ∧ d.cantidad = q ∧
        d.precio_unitario = p.precio ∧ d.subtotal = calcular_subtotal p.precio q := by
  intro agg
  induction agg with
  | nil =>
    intro detId pid q h
    simp at h
  | cons e rest ih =>
    intro detId pid q h p hp
    obtain ⟨p0, q0⟩ := e
    rcases List.mem_cons.mp h with h1 | h1
    · have h1a : pid = p0 := congrArg Prod.fst h1
      have h1b : q = q0 := congrArg Prod.snd h1
      subst h1a
      subst h1b
      rw [buildDetalles, hp]
      refine ⟨_, List.mem_cons_self _ _, rfl, ?_, rfl, rfl, rfl⟩
      exact byId_eq_some_id hp
    · rw [buildDetalles]
      cases hb : byId db p0 with
      | none =>
        exact ih detId pid q h1 p hp
      | some pr =>
        obtain ⟨d, hd, hprops⟩ := ih (detId + 1) pid q h1 p hp
        exact ⟨d, List.mem_cons_of_mem _ hd, hprops⟩

theorem find?_decStock (prods : List Producto) (p0 q0 pid : Int) :
    (decStock prods p0 q0).find? (fun p => p.id == pid) =
      (prods.find? (fun p => p.id == pid)).map
        (fun p => if p.id == p0 then { p with stock := p.stock - q0 } else p) := by
  simp only [decStock]
  rw [List.find?_map]
  have hpred : ((fun p => p.id == pid) ∘
      fun p => if p.id == p0 then { p with stock := p.stock - q0 } else p) =
        (fun p : Producto => p.id == pid) := by
    funext p
    by_cases h : p.id = p0 <;> simp [Function.comp, h]
  rw [hpred]

theorem foldl_decStock_not_mem (pid : Int) :
    ∀ agg : List (Int × Int), ∀ prods : List Producto, pid ∉ agg.map Prod.fst →
      (agg.foldl (fun ps e => decStock ps e.1 e.2) prods).find? (fun p => p.id == pid) =
        prods.find? (fun p => p.id == pid) := by
  intro agg
  induction agg with
  | nil =>
    intro prods _
    rfl
  | cons e rest ih =>
    intro prods hm
    obtain ⟨p0, q0⟩ := e
    simp only [List.map_cons, List.mem_cons] at hm
    push_neg at hm
    rw [List.foldl_cons, ih (decStock prods p0 q0) (by simpa using hm.2), find?_decStock]
    cases hf : prods.find? (fun p => p.id == pid) with
    | none => rfl
    | some pr =>
      have hid : pr.id = pid := by
        have := List.find?_some hf
        simpa [beq_iff_eq] using this
      have hne : pr.id ≠ p0 := by
        rw [hid]
        exact hm.1
      simp [hne]

theorem foldl_decStock_mem (pid q : Int) :
    ∀ agg : List (Int × Int), ∀ prods : List Producto,
      (agg.map Prod.fst).Nodup → (pid, q) ∈ agg →
      (agg.foldl (fun ps e => decStock ps e.1 e.2) prods).find? (fun p => p.id == pid) =
        (prods.find? (fun p => p.id == pid)).map
          (fun p => { p with stock := p.stock - q }) := by
  intro agg
  induction agg with
  | nil =>
    intro prods _ h
    simp at h
  | cons e rest ih =>
    intro prods hnd h
    obtain ⟨p0, q0⟩ := e
    simp only [List.map_cons, List.nodup_cons] at hnd
    rcases List.mem_cons.mp h with h1 | h1
    · have h1a : pid = p0 := congrArg Prod.fst h1
      have h1b : q = q0 := congrArg Prod.snd h1
      subst h1a
      subst h1b
      rw [List.foldl_cons, foldl_decStock_not_mem pid rest (decStock prods pid q) hnd.1,
        find?_decStock]
      cases hf : prods.find? (fun p => p.id == pid) with
      | none => rfl
      | some pr =>
        have hid : pr.id = pid := by
          have := List.find?_some hf
          simpa [beq_iff_eq] using this
        simp [hid]
    · have hne : pid ≠ p0 := by
        intro hc
        apply hnd.1
        rw [← hc]
        exact List.mem_map.mpr ⟨(pid, q), h1, rfl⟩
      rw [List.foldl_cons, ih (decStock prods p0 q0) hnd.2 h1, find?_decStock]
      cases hf : prods.find? (fun p => p.id == pid) with
      | none => rfl
      | some pr =>
        have hid : pr.id = pid := by
          have := List.find?_some hf
          simpa [beq_iff_eq] using this
        have hb : pr.id ≠ p0 := by
          rw [hid]
          exact hne
        simp [hb]

/-! ## The two interesting outcomes of the invoice-creation POST -/

theorem isEmpty_false_of_ne_nil {α : Type} {l : List α} (h : l ≠ []) :
    l.isEmpty = false := by
  cases l with
  | nil => exact absurd rfl h
  | cons a t => rfl

/-- Characterization of the insufficient-stock rejection: once the rows
collect, a customer is selected, and every product id resolves, a
non-empty shortfall list makes the handler flash the joined warning and
return the state unchanged. -/
theorem facturas_nueva_post_stock_reject (db : DB) (cid : Option Int) (rows : List Row)
    (now : PyDateTime) (items : List (Int × Int))
    (hcid : truthyInt cid = true)
    (hitems : collectItems rows = some items)
    (hne : items ≠ [])
    (hfal : faltanList db (aggItems items) = [])
    (hins : insufList db (aggItems items) ≠ []) :
    facturas_nueva_post db cid rows now =
      (.rejected ("Stock insuficiente para: " ++
        String.intercalate ", " (insufList db (aggItems items))), db) := by
  simp [facturas_nueva_post, hcid, hitems, isEmpty_false_of_ne_nil hne, hfal,
    isEmpty_false_of_ne_nil hins]

/-- Characterization of the success path: with a customer, collected
rows, all products known and no shortfall, the handler creates the
invoice, its lines, and the decremented stock in one state update. -/
theorem facturas_nueva_post_success (db : DB) (cid : Option Int) (rows : List Row)
    (now : PyDateTime) (items : List (Int × Int))
    (hcid : truthyInt cid = true)
    (hitems : collectItems rows = some items)
    (hne : items ≠ [])
    (hfal : faltanList db (aggItems items) = [])
    (hins : insufList db (aggItems items) = []) :
    facturas_nueva_post db cid rows now =
      (.created db.nextFacturaId,
        { db with
          productos := (aggItems items).foldl (fun ps e => decStock ps e.1 e.2) db.productos
          facturas := db.facturas ++
            [{ id := db.nextFacturaId
               cliente_id := cid.getD 0
               fecha := now
               total := recalcular_total
                 (buildDetalles db db.nextFacturaId db.nextDetalleId (aggItems items)) }]
          detalles := db.detalles ++
            buildDetalles db db.nextFacturaId db.nextDetalleId (aggItems items)
          nextFacturaId := db.nextFacturaId + 1
          nextDetalleId := db.nextDetalleId +
            ((buildDetalles db db.nextFacturaId db.nextDetalleId (aggItems items)).length : Int) }) := by
  simp [facturas_nueva_post, hcid, hitems, isEmpty_false_of_ne_nil hne, hfal, hins]

/-- C2: when the aggregated quantity of some product in the submission
exceeds its stock, the whole submission is rejected with the warning
that joins one message per shortfall product, the state is returned
exactly as it was, and every shortfall product contributes its message
to the warning. -/
theorem facturas_nueva_stock_guard (db : DB) (cid : Option Int) (rows : List Row)
    (now : PyDateTime) (items : List (Int × Int))
    (hcid : truthyInt cid = true)
    (hitems : collectItems rows = some items)
    (hne : items ≠ [])
    (hfound : ∀ pid ∈ (aggItems items).map Prod.fst, (byId db pid).isSome = true)
    (hshort : ∃ e ∈ aggItems items, ∃ p, byId db e.1 = some p ∧ p.stock < e.2) :
    facturas_nueva_post db cid rows now =
      (.rejected ("Stock insuficiente para: " ++
        String.intercalate ", " (insufList db (aggItems items))), db) ∧
    (∀ e ∈ aggItems items, ∀ p, byId db e.1 = some p → p.stock < e.2 →
      insufEntry p e.2 ∈ insufList db (aggItems items)) := by
  have hmem : ∀ e ∈ aggItems items, ∀ p, byId db e.1 = some p → p.stock < e.2 →
      insufEntry p e.2 ∈ insufList db (aggItems items) := by
    intro e he p hp hlt
    apply List.mem_filterMap.mpr
    refine ⟨e, he, ?_⟩
    rw [hp]
    exact if_pos hlt
  have hfal : faltanList db (aggItems items) = [] := by
    rw [faltanList, List.filter_eq_nil_iff]
    intro pid hpid
    obtain ⟨p, hp⟩ := Option.isSome_iff_exists.mp (hfound pid hpid)
    simp [hp]
  have hins : insufList db (aggItems items) ≠ [] := by
    obtain ⟨e, he, p, hp, hlt⟩ := hshort
    exact List.ne_nil_of_mem (hmem e he p hp hlt)
  exact ⟨facturas_nueva_post_stock_reject db cid rows now items hcid hitems hne hfal hins,
    hmem⟩

/-- Witness for C2: the spec scenario — stock 10, two rows of 5 and 6
for the same product — is rejected naming the product, and the seeded
state is unchanged. -/
theorem facturas_nueva_stock_guard_witness :
    collectItems demoRowsOver = some [(1, 5), (1, 6)] ∧
    facturas_nueva_post initialDB (some 1) demoRowsOver demoNow =
      (.rejected ("Stock insuficiente para: " ++
        String.intercalate ", " (insufList initialDB (aggItems [(1, 5), (1, 6)]))),
        initialDB) ∧
    insufEntry demoProducto 11 ∈ insufList initialDB (aggItems [(1, 5), (1, 6)]) :=
  ⟨by decide,
    (facturas_nueva_stock_guard initialDB (some 1) demoRowsOver demoNow [(1, 5), (1, 6)]
        (by decide) (by decide) (by decide) (by decide)
        ⟨(1, 11), by decide, demoProducto, by decide, by decide⟩).1,
    (facturas_nueva_stock_guard initialDB (some 1) demoRowsOver demoNow [(1, 5), (1, 6)]
        (by decide) (by decide) (by decide) (by decide)
        ⟨(1, 11), by decide, demoProducto, by decide, by decide⟩).2
      (1, 11) (by decide) demoProducto (by decide) (by decide)⟩

/-! ## Aggregation and line snapshots on the success path -/

theorem faltan_nil_of_found {db : DB} {agg : List (Int × Int)}
    (hfound : ∀ pid ∈ agg.map Prod.fst, (byId db pid).isSome = true) :
    faltanList db agg = [] := by
  rw [faltanList, List.filter_eq_nil_iff]
  intro pid hpid
  obtain ⟨p, hp⟩ := Option.isSome_iff_exists.mp (hfound pid hpid)
  simp [hp]

theorem insuf_nil_of_stock {db : DB} {agg : List (Int × Int)}
    (hstock : ∀ e ∈ agg, ∀ p, byId db e.1 = some p → e.2 ≤ p.stock) :
    insufList db agg = [] := by
  rw [insufList, List.filterMap_eq_nil_iff]
  intro e he
  cases hb : byId db e.1 with
  | none => simp [hb]
  | some p =>
    have hle := hstock e he p hb
    exact if_neg (not_lt.mpr hle)

/-- C3: on a successful submission, the created invoice holds exactly
one line per distinct product of the collected rows, carrying the sum
of that product's row quantities, and success presupposes that those
aggregated sums (not the individual rows) passed the stock check. -/
theorem facturas_nueva_aggregation (db : DB) (cid : Option Int) (rows : List Row)
    (now : PyDateTime) (items : List (Int × Int))
    (hcid : truthyInt cid = true)
    (hitems : collectItems rows = some items)
    (hne : items ≠ [])
    (hfound : ∀ pid ∈ (aggItems items).map Prod.fst, (byId db pid).isSome = true)
    (hstock : ∀ e ∈ aggItems items, ∀ p, byId db e.1 = some p → e.2 ≤ p.stock)
    (hOld : ∀ d ∈ db.detalles, d.factura_id ≠ db.nextFacturaId) :
    (∀ pid ∈ items.map Prod.fst,
      ((facturas_nueva_post db cid rows now).2.detalles.filter
          (fun d => d.factura_id == db.nextFacturaId && d.producto_id == pid)).map
        (fun d => d.cantidad) = [sumQty items pid]) ∧
    (∀ pid ∈ items.map Prod.fst, ∀ p, byId db pid = some p →
      sumQty items pid ≤ p.stock) := by
  have hsucc := facturas_nueva_post_success db cid rows now items hcid hitems hne
    (faltan_nil_of_found hfound) (insuf_nil_of_stock hstock)
  constructor
  · intro pid hpid
    rw [hsucc]
    dsimp only
    rw [List.filter_append]
    have hold_nil : db.detalles.filter
        (fun d => d.factura_id == db.nextFacturaId && d.producto_id == pid) = [] := by
      rw [List.filter_eq_nil_iff]
      intro d hd
      simp only [Bool.and_eq_true, beq_iff_eq]
      rintro ⟨hdf, -⟩
      exact hOld d hd hdf
    rw [hold_nil, List.nil_append]
    have hfacid := buildDetalles_factura_id db db.nextFacturaId (aggItems items)
      db.nextDetalleId
    have hfilter_eq : (buildDetalles db db.nextFacturaId db.nextDetalleId
          (aggItems items)).filter
          (fun d => d.factura_id == db.nextFacturaId && d.producto_id == pid) =
        (buildDetalles db db.nextFacturaId db.nextDetalleId (aggItems items)).filter
          (fun d => d.producto_id == pid) := by
      apply List.filter_congr
      intro d hd
      simp [hfacid d hd]
    rw [hfilter_eq]
    have hproj := buildDetalles_proj db db.nextFacturaId (aggItems items)
      db.nextDetalleId hfound
    have key : ((buildDetalles db db.nextFacturaId db.nextDetalleId
          (aggItems items)).filter (fun d => d.producto_id == pid)).map
            (fun d => d.cantidad) =
        (((buildDetalles db db.nextFacturaId db.nextDetalleId (aggItems items)).map
            (fun d => (d.producto_id, d.cantidad))).filter
          (fun e => e.1 == pid)).map (fun e => e.2) := by
      rw [List.filter_map, List.map_map]
      rfl
    rw [key, hproj]
    have hpid' : pid ∈ (aggItems items).map Prod.fst :=
      (mem_keys_aggItems items pid).mpr hpid
    obtain ⟨e, he, hefst⟩ := List.mem_map.mp hpid'
    have hpe : (pid, e.2) = e := by rw [← hefst]
    rw [filter_key_of_nodup (aggItems items) (aggItems_nodup items) pid e.2 (hpe ▸ he)]
    have hsum : sumQty items pid = e.2 := by
      rw [← sumQty_aggItems]
      exact sumQty_of_mem_nodup _ (aggItems_nodup items) pid e.2 (hpe ▸ he)
    simp [hsum]
  · intro pid hpid p hp
    have hpid' : pid ∈ (aggItems items).map Prod.fst :=
      (mem_keys_aggItems items pid).mpr hpid
    obtain ⟨e, he, hefst⟩ := List.mem_map.mp hpid'
    have hpe : (pid, e.2) = e := by rw [← hefst]
    have hsum : sumQty items pid = e.2 := by
      rw [← sumQty_aggItems]
      exact sumQty_of_mem_nodup _ (aggItems_nodup items) pid e.2 (hpe ▸ he)
    rw [hsum]
    apply hstock e he p
    rw [hefst]
    exact hp

/-- Witness for C3: the same-product scenario with enough stock — two
rows of 4 and 5 for product 1 (stock 10) — creates one line of
quantity 9. -/
theorem facturas_nueva_aggregation_witness :
    (1 : Int) ∈ ([(1, 4), (1, 5)] : List (Int × Int)).map Prod.fst ∧
    ((facturas_nueva_post initialDB (some 1)
        [(some 1, some 4), (some 1, some 5)] demoNow).2.detalles.filter
        (fun d => d.factura_id == initialDB.nextFacturaId && d.producto_id == 1)).map
      (fun d => d.cantidad) = [sumQty [(1, 4), (1, 5)] 1] :=
  ⟨by decide,
    (facturas_nueva_aggregation initialDB (some 1) [(some 1, some 4), (some 1, some 5)]
        demoNow [(1, 4), (1, 5)] (by decide) (by decide) (by decide) (by decide)
        (by decide) (by decide)).1 1 (by decide)⟩

/-- C5: on a successful submission every created line snapshots the
product's current price as its unit price, stores
`subtotal = price × quantity` for the aggregated quantity, and the
product's stock is decremented by exactly that aggregated quantity. -/
theorem facturas_nueva_line_snapshot (db : DB) (cid : Option Int) (rows : List Row)
    (now : PyDateTime) (items : List (Int × Int))
    (hcid : truthyInt cid = true)
    (hitems : collectItems rows = some items)
    (hne : items ≠ [])
    (hfound : ∀ pid ∈ (aggItems items).map Prod.fst, (byId db pid).isSome = true)
    (hstock : ∀ e ∈ aggItems items, ∀ p, byId db e.1 = some p → e.2 ≤ p.stock) :
    (facturas_nueva_post db cid rows now).1 = .created db.nextFacturaId ∧
    ∀ e ∈ aggItems items, ∀ p, byId db e.1 = some p →
      (∃ d ∈ (facturas_nueva_post db cid rows now).2.detalles,
          d.factura_id = db.nextFacturaId ∧ d.producto_id = e.1 ∧ d.cantidad = e.2 ∧
          d.precio_unitario = p.precio ∧ d.subtotal = p.precio * e.2) ∧
      byId (facturas_nueva_post db cid rows now).2 e.1 =
        some { p with stock := p.stock - e.2 } := by
  have hsucc := facturas_nueva_post_success db cid rows now items hcid hitems hne
    (faltan_nil_of_found hfound) (insuf_nil_of_stock hstock)
  refine ⟨by rw [hsucc], ?_⟩
  intro e he p hp
  obtain ⟨pid, q⟩ := e
  constructor
  · obtain ⟨d, hd, hprops⟩ := buildDetalles_entry db db.nextFacturaId (aggItems items)
      db.nextDetalleId pid q he p hp
    refine ⟨d, ?_, hprops.1, hprops.2.1, hprops.2.2.1, hprops.2.2.2.1,
      hprops.2.2.2.2⟩
    rw [hsucc]
    dsimp only
    exact List.mem_append_right _ hd
  · rw [hsucc]
    simp only [byId]
    rw [foldl_decStock_mem pid q (aggItems items) db.productos (aggItems_nodup items) he]
    simp only [byId] at hp
    rw [hp]
    rfl

/-- Witness for C5: the spec scenario — price 100.00, quantity 3 —
yields a line with unit price 10000 hundredths, subtotal 30000
hundredths (300.00), and stock cut from 10
to 7. -/
theorem facturas_nueva_line_snapshot_witness :
    (facturas_nueva_post initialDB (some 1) [(some 1, some 3)] demoNow).1 =
      .created initialDB.nextFacturaId ∧
    (∃ d ∈ (facturas_nueva_post initialDB (some 1) [(some 1, some 3)] demoNow).2.detalles,
        d.factura_id = initialDB.nextFacturaId ∧ d.producto_id = (1 : Int) ∧
        d.cantidad = (3 : Int) ∧ d.precio_unitario = demoProducto.precio ∧
        d.subtotal = demoProducto.precio * (3 : Int)) ∧
    byId (facturas_nueva_post initialDB (some 1) [(some 1, some 3)] demoNow).2 1 =
      some { demoProducto with stock := demoProducto.stock - 3 } :=
  have h := facturas_nueva_line_snapshot initialDB (some 1) [(some 1, some 3)] demoNow
    [(1, 3)] (by decide) (by decide) (by decide) (by decide) (by decide)
  ⟨h.1, (h.2 (1, 3) (by decide) demoProducto (by decide)).1,
    (h.2 (1, 3) (by decide) demoProducto (by decide)).2⟩

/-! ## The totals invariant -/

theorem totals_invariant_facturas_nueva (db : DB) (cid : Option Int) (rows : List Row)
    (now : PyDateTime) (h : TotalsInvariant db) :
    TotalsInvariant (facturas_nueva_post db cid rows now).2 := by
  by_cases hcid : truthyInt cid = true
  · cases hitems : collectItems rows with
    | none =>
      have heq : (facturas_nueva_post db cid rows now).2 = db := by
        simp [facturas_nueva_post, hcid, hitems]
      rw [heq]
      exact h
    | some items =>
      by_cases hne : items = []
      · subst hne
        have heq : (facturas_nueva_post db cid rows now).2 = db := by
          simp [facturas_nueva_post, hcid, hitems]
        rw [heq]
        exact h
      · by_cases hfal : faltanList db (aggItems items) = []
        · by_cases hins : insufList db (aggItems items) = []
          · rw [facturas_nueva_post_success db cid rows now items hcid hitems hne hfal hins]
            have hdet := buildDetalles_factura_id db db.nextFacturaId (aggItems items)
              db.nextDetalleId
            refine ⟨?_, ?_, ?_⟩
            · intro f hf
              dsimp only at hf
              rcases List.mem_append.mp hf with hm | hm
              · have := h.1 f hm
                dsimp only
                omega
              · rw [List.mem_singleton.mp hm]
                dsimp only
                omega
            · intro d hd
              dsimp only at hd
              rcases List.mem_append.mp hd with hm | hm
              · have := h.2.1 d hm
                dsimp only
                omega
              · have := hdet d hm
                dsimp only
                omega
            · intro f hf
              dsimp only at hf
              rcases List.mem_append.mp hf with hm | hm
              · have hold := h.2.2 f hm
                have hid := h.1 f hm
                have hnew_nil : (buildDetalles db db.nextFacturaId db.nextDetalleId
                    (aggItems items)).filter (fun d => d.factura_id == f.id) = [] := by
                  rw [List.filter_eq_nil_iff]
                  intro d hd
                  simp only [beq_iff_eq]
                  rw [hdet d hd]
                  omega
                simp only [lineasDe]
                rw [List.filter_append, hnew_nil, List.append_nil]
                exact hold
              · rw [List.mem_singleton.mp hm]
                have hold_nil : db.detalles.filter
                    (fun d => d.factura_id == db.nextFacturaId) = [] := by
                  rw [List.filter_eq_nil_iff]
                  intro d hd
                  simp only [beq_iff_eq]
                  have := h.2.1 d hd
                  omega
                have hnew_all : (buildDetalles db db.nextFacturaId db.nextDetalleId
                    (aggItems items)).filter (fun d => d.factura_id == db.nextFacturaId) =
                    buildDetalles db db.nextFacturaId db.nextDetalleId (aggItems items) := by
                  rw [List.filter_eq_self]
                  intro d hd
                  simp [hdet d hd]
                simp only [lineasDe]
                rw [List.filter_append, hold_nil, List.nil_append, hnew_all]
          · rw [facturas_nueva_post_stock_reject db cid rows now items hcid hitems hne
              hfal hins]
            exact h
        · have heq : (facturas_nueva_post db cid rows now).2 = db := by
            simp [facturas_nueva_post, hcid, hitems, isEmpty_false_of_ne_nil hne,
              isEmpty_false_of_ne_nil hfal]
          rw [heq]
          exact h
  · rw [Bool.not_eq_true] at hcid
    have heq : (facturas_nueva_post db cid rows now).2 = db := by
      simp [facturas_nueva_post, hcid]
    rw [heq]
    exact h

theorem totals_invariant_applyOp (db : DB) (op : Op) (h : TotalsInvariant db) :
    TotalsInvariant (applyOp db op) := by
  cases op with
  | clientesNuevo valid nombre direccion telefono email =>
    simp only [applyOp, clientes_nuevo]
    split
    · exact h
    · exact h
  | clientesEditar cid valid nombre direccion telefono email =>
    simp only [applyOp, clientes_editar]
    split
    · exact h
    · split
      · exact h
      · exact h
  | clientesEliminar cid =>
    simp only [applyOp, clientes_eliminar]
    split
    · exact h
    · split
      · exact h
      · exact h
  | productosNuevo valid descripcion precio stock =>
    simp only [applyOp, productos_nuevo]
    split
    · exact h
    · exact h
  | productosEditar pid valid descripcion precio stock =>
    simp only [applyOp, productos_editar]
    split
    · exact h
    · split
      · exact h
      · exact h
  | productosEliminar pid =>
    simp only [applyOp, productos_eliminar]
    split
    · exact h
    · split
      · exact h
      · exact h
  | facturasNueva cid rows now =>
    exact totals_invariant_facturas_nueva db cid rows now h
  | resetdb =>
    refine ⟨?_, ?_, ?_⟩ <;> simp [applyOp]

theorem totals_invariant_applyOps (ops : List Op) :
    ∀ db : DB, TotalsInvariant db → TotalsInvariant (applyOps db ops) := by
  induction ops with
  | nil =>
    intro db h
    exact h
  | cons op rest ih =>
    intro db h
    exact ih (applyOp db op) (totals_invariant_applyOp db op h)

theorem totals_invariant_initial : TotalsInvariant initialDB := by
  refine ⟨?_, ?_, ?_⟩ <;> simp [initialDB]

/-- C1: after any sequence of application operations starting from the
seeded state, every stored invoice's total equals the sum of the
subtotals of its lines. -/
theorem invoice_totals_invariant (ops : List Op) :
    ∀ f ∈ (applyOps initialDB ops).facturas,
      f.total = ((lineasDe (applyOps initialDB ops) f.id).map (fun d => d.subtotal)).sum :=
  fun f hf => (totals_invariant_applyOps ops initialDB totals_invariant_initial).2.2 f hf

/-- Witness for C1: the invoice created by the scenario submission has
total 300 and its single line subtotals to 300. -/
theorem invoice_totals_invariant_witness :
    demoFac ∈ (applyOps initialDB demoOps).facturas ∧
    demoFac.total = ((lineasDe (applyOps initialDB demoOps) demoFac.id).map
      (fun d => d.subtotal)).sum :=
  ⟨by decide, invoice_totals_invariant demoOps demoFac (by decide)⟩

/-! ## Listing and report filtering -/

/-- C8: the invoice listing returns exactly the stored invoices that
pass the optional customer filter and the optional date-range filters,
where the upper bound includes every timestamp up to 23:59:59.999999 of
the `hasta` day; and the sales report's count and total are the
cardinality and the sum of totals of the date-filtered set. -/
theorem facturas_filtering (db : DB) (cid : Option Int) (ds hs : Option String) :
    (∀ f, f ∈ facturas_list db cid ds hs ↔
      f ∈ db.facturas ∧
        (truthyInt cid = true → f.cliente_id = cid.getD 0) ∧
        (∀ d, _parse_date_yyyy_mm_dd ds = some d → dtLe d f.fecha = true) ∧
        (∀ h, _parse_date_yyyy_mm_dd hs = some h →
          dtLe f.fecha ⟨h.year, h.month, h.day, 23, 59, 59, 999999⟩ = true)) ∧
    (reportes_ventas db ds hs).conteo =
      (db.facturas.filter (fun f => matchesDateRange ds hs f)).length ∧
    (reportes_ventas db ds hs).total =
      ((db.facturas.filter (fun f => matchesDateRange ds hs f)).map
        (fun f => f.total)).sum := by
  refine ⟨?_, ?_, ?_⟩
  · intro f
    simp only [facturas_list, ordenFacturas]
    rw [List.mem_insertionSort]
    by_cases hc : truthyInt cid = true <;>
      cases hd : _parse_date_yyyy_mm_dd ds <;>
        cases hh : _parse_date_yyyy_mm_dd hs <;>
          (simp [hc, hd, hh, List.mem_filter, endOfDay, and_assoc]
           try tauto)
  · simp only [reportes_ventas, ordenFacturas]
    rw [List.length_insertionSort]
    cases hd : _parse_date_yyyy_mm_dd ds <;>
      cases hh : _parse_date_yyyy_mm_dd hs <;>
        simp [matchesDateRange, hd, hh, List.filter_filter, Bool.and_comm]
  · simp only [reportes_ventas, ordenFacturas]
    rw [((List.perm_insertionSort (fun f g => facBefore f g = true) _).map
      (fun f => f.total)).sum_eq]
    cases hd : _parse_date_yyyy_mm_dd ds <;>
      cases hh : _parse_date_yyyy_mm_dd hs <;>
        simp [matchesDateRange, hd, hh, List.filter_filter, Bool.and_comm]

end FlaskApp
